import Mathlib

set_option maxRecDepth 8000

/-!
Verification of the retrieval-and-serving core of the Primatology RAG chat
backend (backend/main.py) against its natural-language specification.

Shallow embedding conventions:
- Python floats carrying epoch timestamps and similarity scores are modelled
  as rationals (ℚ).
- Mutable module-level state (rate-limit sequences, the embedding cache) is
  modelled by explicit state passing: each operation returns its result
  together with the new state.
- A Python dict used as a set/counter with unobserved iteration order is
  modelled as a function with pointwise update; a dict whose insertion order
  is observed (collections.OrderedDict, counting dicts rendered in order) is
  modelled as an association list.
- Header absence is modelled as the empty string, matching
  request.headers.get(name, "") and Python truthiness on strings.
-/

namespace RagChat

/-- Vectors of the embedding space (python list[float]). -/
abbrev Vec := List ℚ

/-! ## Python string primitives

The Python string methods used by the backend are modelled character-wise
over List Char (the built-in String.trim, String.toLower and
String.splitOn are equivalent but their byte-position implementations do
not reduce in the kernel, which concrete witnesses need). -/

/-- Python str.startswith: the second argument is a prefix of the first. -/
def pyStartswith (s pre : String) : Bool :=
  pre.toList.isPrefixOf s.toList

/-- Python str.lower (ASCII case folding, as in the data this serves). -/
def pyLower (s : String) : String :=
  String.mk (s.toList.map Char.toLower)

/-- Python str.strip: remove leading and trailing whitespace. -/
def pyStrip (s : String) : String :=
  String.mk (((s.toList.dropWhile Char.isWhitespace).reverse.dropWhile
    Char.isWhitespace).reverse)

/-- Splitting a character list at every comma; the Python
str.split(sep) semantics, so "".split gives one empty field. -/
def splitCommaChars : List Char → List (List Char)
  | [] => [[]]
  | c :: rest =>
    match splitCommaChars rest with
    | [] => [[c]]
    | group :: groups =>
      if c = ',' then [] :: group :: groups else (c :: group) :: groups

/-- Python str.split(",") on strings. -/
def pySplitComma (s : String) : List String :=
  (splitCommaChars s.toList).map String.mk

/-- Substring containment over character lists (Python needle in hay). -/
def isInfixChars (needle : List Char) : List Char → Bool
  | [] => needle.isEmpty
  | c :: rest => needle.isPrefixOf (c :: rest) || isInfixChars needle rest

/-- Python needle in hay on strings. -/
def pyContains (hay needle : String) : Bool :=
  isInfixChars needle.toList hay.toList

/-! ## Access gate: rate limiting (main.py lines 48-53, 288-315) -/

/-- RATE_LIMIT = 20 requests per hour per IP. -/
def RATE_LIMIT : ℕ := 20

/-- DAILY_LIMIT = 100 requests per day per IP. -/
def DAILY_LIMIT : ℕ := 100

/-- GLOBAL_DAILY_LIMIT = 500 total requests per day across all users. -/
def GLOBAL_DAILY_LIMIT : ℕ := 500

/-- Result of check_rate_limit: (allowed, remaining, reason). -/
abbrev RateDecision := Bool × ℕ × String

/-- Embedding of check_rate_limit (main.py 288-315).  The function both
decides and mutates: it reassigns global_request_times and
request_counts[ip] to their pruned versions.  We return the decision
together with the new (globalTimes, ipTimes) state.  On the global_limit
early return the per-IP sequence is untouched, as in the source, because
the early return happens before request_counts[ip] is reassigned. -/
def check_rate_limit (globalTimes ipTimes : List ℚ) (now : ℚ) :
    RateDecision × List ℚ × List ℚ :=
  let hour_ago := now - 3600
  let day_ago := now - 86400
  let g := globalTimes.filter (fun t => day_ago < t)
  if GLOBAL_DAILY_LIMIT ≤ g.length then
    ((false, 0, "global_limit"), g, ipTimes)
  else
    let ips := ipTimes.filter (fun t => day_ago < t)
    let hourly := (ips.filter (fun t => hour_ago < t)).length
    let daily := ips.length
    if RATE_LIMIT ≤ hourly then ((false, 0, "hourly_limit"), g, ips)
    else if DAILY_LIMIT ≤ daily then ((false, 0, "daily_limit"), g, ips)
    else ((true, min (RATE_LIMIT - hourly) (DAILY_LIMIT - daily), "ok"), g, ips)

/-- The quota decision as the specification words it (spec section 4.2,
written independently of the code for the refinement comparison): prune the
global sequence to 24 hours and deny global_limit at the global ceiling;
otherwise prune the per-IP sequence, count last-hour and total entries,
deny hourly_limit or daily_limit at the ceilings, else allow with remaining
quota min (hourly ceiling - hourly count) (daily ceiling - daily count). -/
def quotaDecisionSpec (globalTimes ipTimes : List ℚ) (now : ℚ) : RateDecision :=
  let prunedGlobal := globalTimes.filter (fun t => now - 86400 < t)
  if 500 ≤ prunedGlobal.length then (false, 0, "global_limit")
  else
    let prunedIp := ipTimes.filter (fun t => now - 86400 < t)
    let hourlyCount := (prunedIp.filter (fun t => now - 3600 < t)).length
    let dailyCount := prunedIp.length
    if 20 ≤ hourlyCount then (false, 0, "hourly_limit")
    else if 100 ≤ dailyCount then (false, 0, "daily_limit")
    else (true, min (20 - hourlyCount) (100 - dailyCount), "ok")

/-! ## Access gate: origin validation (main.py lines 56-63, 265-285) -/

/-- ALLOWED_ORIGINS (main.py 56-63). -/
def ALLOWED_ORIGINS : List String :=
  ["https://kordinglab.com",
   "https://www.kordinglab.com",
   "https://kordinglab.github.io",
   "http://localhost:8000",
   "http://localhost:3000",
   "http://127.0.0.1:8000"]

/-- Embedding of validate_origin (main.py 265-285).  A missing Origin or
Referer header is the empty string (headers.get default), and Python string
truthiness makes the empty string behave as absent. -/
def validate_origin (origin referer clientIP : String) : Bool :=
  if origin != "" && ALLOWED_ORIGINS.any (fun allowed => pyStartswith origin allowed) then
    true
  else if referer != "" && ALLOWED_ORIGINS.any (fun allowed => pyStartswith referer allowed) then
    true
  else if origin == "" && referer == "" then
    if clientIP == "127.0.0.1" || clientIP == "::1" || clientIP == "localhost" then
      true
    else false
  else false

/-! ## The chat endpoint gate sequence (main.py 591-622) -/

/-- The gate portion of the chat endpoint (main.py 596-622): origin
validation, then the rate-limit check (whose pruning of the two sequences
persists even when the request is denied), then - only for an admitted
request - a single append of now to both the per-IP and the global
sequence.  Returns (some remaining) on admission, none on denial, plus the
new (globalTimes, ipTimes) state. -/
def chatGate (origin referer clientIP : String) (globalTimes ipTimes : List ℚ)
    (now : ℚ) : Option ℕ × List ℚ × List ℚ :=
  if validate_origin origin referer clientIP = false then
    (none, globalTimes, ipTimes)
  else
    let r := check_rate_limit globalTimes ipTimes now
    if r.1.1 then (some r.1.2.1, r.2.1 ++ [now], r.2.2 ++ [now])
    else (none, r.2.1, r.2.2)

/-! ## Embedding cache (main.py lines 65-67, 325-354) -/

/-- EMBEDDING_CACHE_SIZE = 100. -/
def EMBEDDING_CACHE_SIZE : ℕ := 100

/-- The OrderedDict embedding_cache: least-recently-used entry first,
most-recently-used entry last. -/
abbrev Cache := List (String × Vec)

/-- Cache key of a query (main.py 330):
hashlib.md5(query.lower().strip().encode()).hexdigest().  The md5 hex
digest is modelled by the normalized text itself: an injective stand-in
for a digest whose collisions the spec declares acceptable and that no
claim depends on. -/
def cacheKey (q : String) : String :=
  pyStrip (pyLower q)

/-- Dict membership / read: cache_key in embedding_cache and
embedding_cache[cache_key]. -/
def lookupCache (c : Cache) (k : String) : Option Vec :=
  (c.find? (fun e => e.1 == k)).map Prod.snd

/-- OrderedDict.move_to_end: reposition the entry for k at the
most-recently-used end. -/
def moveToEnd (c : Cache) (k : String) (v : Vec) : Cache :=
  c.filter (fun e => e.1 != k) ++ [(k, v)]

/-- The eviction loop (main.py 348-349):
while len(embedding_cache) > EMBEDDING_CACHE_SIZE: popitem(last=False). -/
def evictLoop : Cache → Cache
  | [] => []
  | e :: rest =>
    if EMBEDDING_CACHE_SIZE < (e :: rest).length then evictLoop rest else e :: rest

/-- Embedding of get_query_embedding (main.py 325-354).  The embedding
collaborator (SentenceTransformer.encode) is the parameter embed; note the
source embeds the raw query while the cache key is the normalized one.
Returns (vector, new cache state, whether the collaborator was invoked). -/
def get_query_embedding (embed : String → Vec) (cache : Cache) (q : String) :
    Vec × Cache × Bool :=
  let k := cacheKey q
  match lookupCache cache k with
  | some v => (v, moveToEnd cache k v, false)
  | none =>
    let v := embed q
    (v, evictLoop (cache ++ [(k, v)]), true)

/-! ## Cosine similarity (main.py 318-322) -/

/-- np.dot on python float lists. -/
def dotList (a b : Vec) : ℚ :=
  ((a.zip b).map (fun p => p.1 * p.2)).sum

/-- Squared L2 norm, the argument of np.linalg.norm before the square
root. -/
def normSq (a : Vec) : ℚ :=
  dotList a a

/-- Embedding of cosine_similarity (main.py 318-322):
np.dot(a, b) / (np.linalg.norm(a) * np.linalg.norm(b)) with no guard on
the denominator.  np.linalg.norm is the square root of the sum of squares;
square roots of rationals are generally irrational, so the square root is
an abstract parameter (the claims only need sqrt 0 = 0).  IEEE float
division yields NaN exactly when the denominator is 0 here (a zero norm
forces the dot product to 0 as well), and NaN is modelled as none. -/
def cosine_similarity (sqrt : ℚ → ℚ) (a b : Vec) : Option ℚ :=
  let denom := sqrt (normSq a) * sqrt (normSq b)
  if denom = 0 then none else some (dotList a b / denom)

/-! ## Stable descending sort

Python list.sort(key=k, reverse=True) is stable: elements with equal keys
keep their original relative order (reverse=True does not reverse ties).
It is therefore extensionally the unique sort by the total order (key
descending, original position ascending); we sort position-annotated
elements by that total order with insertion sort. -/

/-- Annotate a list with positions n, n+1, ... -/
def withIdx {α : Type} (n : ℕ) : List α → List (ℕ × α)
  | [] => []
  | a :: l => (n, a) :: withIdx (n + 1) l

/-- Key descending, ties by ascending original position. -/
def keyRelD {α K : Type} [LinearOrder K] (key : α → K) (a b : ℕ × α) : Prop :=
  key b.2 < key a.2 ∨ (key a.2 = key b.2 ∧ a.1 ≤ b.1)

instance {α K : Type} [LinearOrder K] (key : α → K) : DecidableRel (keyRelD key) :=
  fun _ _ => inferInstanceAs (Decidable (_ ∨ _))

instance {α K : Type} [LinearOrder K] (key : α → K) : IsTotal (ℕ × α) (keyRelD key) := by
  constructor
  intro a b
  rcases lt_trichotomy (key a.2) (key b.2) with h | h | h
  · exact Or.inr (Or.inl h)
  · rcases Nat.le_total a.1 b.1 with hi | hi
    · exact Or.inl (Or.inr ⟨h, hi⟩)
    · exact Or.inr (Or.inr ⟨h.symm, hi⟩)
  · exact Or.inl (Or.inl h)

instance {α K : Type} [LinearOrder K] (key : α → K) : IsTrans (ℕ × α) (keyRelD key) := by
  constructor
  rintro a b c (hab | ⟨hab, hiab⟩) (hbc | ⟨hbc, hibc⟩)
  · exact Or.inl (lt_trans hbc hab)
  · exact Or.inl (hbc ▸ hab)
  · exact Or.inl (hab ▸ hbc)
  · exact Or.inr ⟨hab.trans hbc, le_trans hiab hibc⟩

/-- Stable descending sort by key, with position annotations retained. -/
def sortDescIdx {α K : Type} [LinearOrder K] (key : α → K) (l : List α) : List (ℕ × α) :=
  (withIdx 0 l).insertionSort (keyRelD key)

/-- Stable descending sort by key. -/
def sortDesc {α K : Type} [LinearOrder K] (key : α → K) (l : List α) : List α :=
  (sortDescIdx key l).map Prod.snd

/-! ## Corpus data model (papers_with_abstracts.json records) -/

/-- A paper record.  Fields are optional strings: none models an absent
key (Python dict.get default paths); the source data stores every field as
text or leaves it out.  Years are kept as their str() rendering, which is
how compute_dataset_stats keys them. -/
structure Paper where
  id : String := ""
  title : Option String := none
  name : Option String := none
  year : Option String := none
  authors : Option String := none
  topics : Option String := none
  animal : Option String := none
  abstract : Option String := none
  url : Option String := none
  code : Option String := none
deriving DecidableEq, Repr

/-- Python truthiness of an optional string field: present and non-empty. -/
def truthy (o : Option String) : Bool :=
  match o with
  | none => false
  | some s => s != ""

/-- Python x or y on two optional string fields. -/
def pyOr (a b : Option String) : Option String :=
  if truthy a then a else b

/-- Rendering an optional field inside an f-string: Python prints None. -/
def pyStr (o : Option String) : String :=
  match o with
  | none => "None"
  | some s => s

/-! ## Dataset statistics (main.py 159-215) -/

/-- Comma-split a tag field and strip each part, keeping non-empty parts:
the loop body shared by the species and topic counters. -/
def splitTags (s : String) : List String :=
  ((pySplitComma s).map pyStrip).filter (fun t => t != "")

/-- The species tags of one paper (main.py 168-175):
animal = p.get(animal, Unknown); if animal: split/strip/count. -/
def speciesOf (p : Paper) : List String :=
  let animal := p.animal.getD "Unknown"
  if animal = "" then [] else splitTags animal

/-- The topic tags of one paper (main.py 179-185). -/
def topicsOf (p : Paper) : List String :=
  let topics := p.topics.getD ""
  if topics = "" then [] else splitTags topics

/-- The year key of one paper (main.py 189-192): counted only when
truthy, keyed by str(year). -/
def yearOf (p : Paper) : Option String :=
  match p.year with
  | none => none
  | some y => if y = "" then none else some y

/-- collections.defaultdict(int) increment, preserving first-seen
insertion order of keys. -/
def bumpCount : List (String × ℕ) → String → List (String × ℕ)
  | [], k => [(k, 1)]
  | (k', n) :: rest, k =>
    if k' = k then (k', n + 1) :: rest else (k', n) :: bumpCount rest k

/-- The species frequency table in first-seen order. -/
def speciesCounts (papers : List Paper) : List (String × ℕ) :=
  papers.foldl (fun acc p => (speciesOf p).foldl bumpCount acc) []

/-- The topic frequency table in first-seen order. -/
def topicCounts (papers : List Paper) : List (String × ℕ) :=
  papers.foldl (fun acc p => (topicsOf p).foldl bumpCount acc) []

/-- The year frequency table in first-seen order. -/
def yearCounts (papers : List Paper) : List (String × ℕ) :=
  papers.foldl
    (fun acc p => match yearOf p with | none => acc | some y => bumpCount acc y) []

/-- The dataset_stats dict (main.py 205-215); the frequency tables are
dicts built from sorted pair lists, hence lists in that sorted order. -/
structure DatasetStats where
  total_papers : ℕ
  papers_with_code : ℕ
  papers_with_abstracts : ℕ
  by_species : List (String × ℕ)
  by_topic : List (String × ℕ)
  by_year : List (String × ℕ)
  most_studied_species : List (String × ℕ)
  least_studied_species : List (String × ℕ)
  most_common_topics : List (String × ℕ)
deriving DecidableEq, Repr

/-- Embedding of compute_dataset_stats (main.py 159-215).  The species and
topic tables are sorted by count descending (sorted(..., key=x[1],
reverse=True), stable); the year table is sorted by the year string
descending (key=x[0], reverse=True), where Python string comparison is
code-point lexicographic, modelled by the character-list order. -/
def compute_dataset_stats (papers : List Paper) : DatasetStats :=
  let sorted_species := sortDesc (fun e => e.2) (speciesCounts papers)
  let sorted_topics := sortDesc (fun e => e.2) (topicCounts papers)
  let sorted_years := sortDesc (fun e => e.1.toList) (yearCounts papers)
  { total_papers := papers.length
    papers_with_code := (papers.filter (fun p => truthy p.code)).length
    papers_with_abstracts := (papers.filter (fun p => truthy p.abstract)).length
    by_species := sorted_species
    by_topic := sorted_topics
    by_year := sorted_years
    most_studied_species := sorted_species.take 5
    least_studied_species :=
      if 5 ≤ sorted_species.length then
        sorted_species.drop (sorted_species.length - 5)
      else sorted_species
    most_common_topics := sorted_topics.take 5 }

/-! ## Paper-level search (main.py 357-386)

Both search functions first obtain the query embedding through the cache
and then score every stored embedding with
cosine_similarity(query_embedding, embedding).  That per-query scoring
function is the parameter score : Vec → ℚ below: cosine similarity over
floats takes square roots, which have no exact rational embedding, and the
ranking claims quantify over all similarity values anyway.  none-valued
(NaN) similarities are outside this model. -/

/-- Embedding of search_papers (main.py 357-386): score every paper
embedding, sort by similarity descending (Python stable sort), take the
top top_k ids, and keep those with a papers_lookup match, each annotated
with its relevance_score. -/
def search_papers (lookup : String → Option Paper) (paperEmbs : List (String × Vec))
    (score : Vec → ℚ) (top_k : ℕ) : List (Paper × ℚ) :=
  if paperEmbs.isEmpty then []
  else
    let similarities := paperEmbs.map (fun e => (e.1, score e.2))
    let ranked := sortDesc (fun x => x.2) similarities
    (ranked.take top_k).filterMap (fun x => (lookup x.1).map (fun p => (p, x.2)))

/-! ## Chunk-level search with diversity (main.py 389-433) -/

/-- A chunk record (chunks.json).  The nested metadata dict is flattened
into the m_ fields. -/
structure Chunk where
  chunk_id : String := ""
  paper_id : String := ""
  sectionLabel : Option String := none
  text : Option String := none
  m_title : Option String := none
  m_year : Option String := none
  m_authors : Option String := none
  m_url : Option String := none
  m_animal : Option String := none
  m_topics : Option String := none
deriving DecidableEq, Repr

/-- One entry of chunk_embeddings[embeddings]. -/
structure ChunkEmb where
  chunk_id : String := ""
  paper_id : String := ""
  embedding : Vec := []
deriving DecidableEq, Repr

/-- The selection loop of search_chunks (main.py 415-431): walk the ranked
list; skip (continue) a chunk whose paper already has max_per_paper
accepted chunks; otherwise look the chunk up, appending it and bumping the
count of its paper when found; after the lookup step, stop as soon as
len(results) has reached top_k.  paper_counts is a defaultdict(int),
modelled as a function. -/
def selectDiverse (lookup : String → Option Chunk) (max_per_paper top_k : ℕ) :
    List (String × String × ℚ) → (String → ℕ) → List (Chunk × ℚ) → List (Chunk × ℚ)
  | [], _, results => results
  | (cid, pid, _s) :: rest, counts, results =>
    if max_per_paper ≤ counts pid then
      selectDiverse lookup max_per_paper top_k rest counts results
    else
      match lookup cid with
      | none =>
        if top_k ≤ results.length then results
        else selectDiverse lookup max_per_paper top_k rest counts results
      | some c =>
        let results' := results ++ [(c, _s)]
        let counts' := fun p => if p = pid then counts pid + 1 else counts p
        if top_k ≤ results'.length then results'
        else selectDiverse lookup max_per_paper top_k rest counts' results'

/-- Embedding of search_chunks (main.py 389-433): score every chunk
embedding, sort descending by similarity (stable), then select with the
per-paper diversity cap. -/
def search_chunks (lookup : String → Option Chunk) (chunkEmbs : List ChunkEmb)
    (score : Vec → ℚ) (top_k max_per_paper : ℕ) : List (Chunk × ℚ) :=
  if chunkEmbs.isEmpty then []
  else
    let similarities := chunkEmbs.map (fun e => (e.chunk_id, e.paper_id, score e.embedding))
    let ranked := sortDesc (fun x => x.2.2) similarities
    selectDiverse lookup max_per_paper top_k ranked (fun _ => 0) []

/-! ## Meta-question classifier (main.py 91-96, 221-224) -/

/-- META_KEYWORDS (main.py 91-96). -/
def META_KEYWORDS : List String :=
  ["how many", "statistics", "underrepresented", "gaps", "trends",
   "most common", "least common", "overview", "summary", "distribution",
   "breakdown", "total", "count", "popular", "rare", "missing",
   "what species", "which species", "all papers", "dataset"]

/-- Embedding of is_meta_question (main.py 221-224): any keyword occurs in
the lower-cased question. -/
def is_meta_question (question : String) : Bool :=
  META_KEYWORDS.any (fun kw => pyContains (pyLower question) kw)

/-! ## Context formatting (main.py 227-254, 436-489) -/

/-- Python str.upper, character-wise like pyLower. -/
def pyUpper (s : String) : String :=
  String.mk (s.toList.map Char.toUpper)

/-- Embedding of format_stats_context (main.py 227-254).  The global
dataset_stats dict is empty (falsy) exactly when the corpus is empty,
since compute_dataset_stats returns early then; the function then returns
the empty string. -/
def format_stats_context (papers : List Paper) : String :=
  if papers.isEmpty then ""
  else
    let s := compute_dataset_stats papers
    String.intercalate "\n"
      (["=== DATASET STATISTICS ===",
        "Total papers in database: " ++ toString s.total_papers,
        "Papers with source code available: " ++ toString s.papers_with_code,
        "Papers with abstracts: " ++ toString s.papers_with_abstracts,
        "",
        "Papers by species (most to least studied):"]
       ++ s.by_species.map (fun e => "  - " ++ e.1 ++ ": " ++ toString e.2 ++ " papers")
       ++ ["", "Papers by topic:"]
       ++ s.by_topic.map (fun e => "  - " ++ e.1 ++ ": " ++ toString e.2 ++ " papers")
       ++ ["", "Papers by year:"]
       ++ (s.by_year.take 10).map (fun e => "  - " ++ e.1 ++ ": " ++ toString e.2 ++ " papers"))

/-- One block of format_context (main.py 469-487), for the paper at
1-based position i; absent fields are omitted, not blanked, and Python
renders a None title/year as the text None. -/
def formatPaperBlock (i : ℕ) (p : Paper) : String :=
  String.intercalate "\n"
    (["Paper " ++ toString i ++ ": " ++ pyStr (pyOr p.title p.name) ++
        " (" ++ pyStr p.year ++ ")"]
     ++ (if truthy p.authors then ["Authors: " ++ pyStr p.authors] else [])
     ++ (if truthy p.topics then ["Topics: " ++ pyStr p.topics] else [])
     ++ (if truthy p.animal then ["Species: " ++ pyStr p.animal] else [])
     ++ (if truthy p.abstract then ["Abstract: " ++ pyStr p.abstract] else [])
     ++ (if truthy p.url then ["URL: " ++ pyStr p.url] else []))

/-- Embedding of format_context (main.py 466-489): one block per
(paper, relevance_score) result, enumerated from 1, joined by the visible
separator. -/
def format_context (papers : List (Paper × ℚ)) : String :=
  String.intercalate "\n\n---\n\n"
    ((withIdx 1 papers).map (fun ip => formatPaperBlock ip.1 ip.2.1))

/-- Grouping chunks by owning paper in order of first appearance
(defaultdict(list) insertion order, main.py 439-441). -/
def addToGroups (groups : List (String × List (Chunk × ℚ))) (x : Chunk × ℚ) :
    List (String × List (Chunk × ℚ)) :=
  match groups with
  | [] => [(x.1.paper_id, [x])]
  | (pid, xs) :: rest =>
    if pid = x.1.paper_id then (pid, xs ++ [x]) :: rest
    else (pid, xs) :: addToGroups rest x

/-- by_paper of format_chunk_context. -/
def groupByPaper (chunks : List (Chunk × ℚ)) : List (String × List (Chunk × ℚ)) :=
  chunks.foldl addToGroups []

/-- One paper group of format_chunk_context (main.py 444-461): metadata of
the first chunk, optional species/topics lines, then every accepted chunk
as an upper-cased section tag plus text. -/
def formatChunkGroup (g : String × List (Chunk × ℚ)) : String :=
  match g.2 with
  | [] => ""
  | first :: _ =>
    let m := first.1
    String.intercalate "\n"
      (["Paper: " ++ m.m_title.getD "Unknown" ++ " (" ++ m.m_year.getD "" ++ ")",
        "Authors: " ++ m.m_authors.getD "Unknown"]
       ++ (if truthy m.m_animal then ["Species: " ++ pyStr m.m_animal] else [])
       ++ (if truthy m.m_topics then ["Topics: " ++ pyStr m.m_topics] else [])
       ++ g.2.map (fun ch =>
            "\n[" ++ pyUpper (ch.1.sectionLabel.getD "body") ++ "]\n" ++ ch.1.text.getD ""))

/-- Embedding of format_chunk_context (main.py 436-463). -/
def format_chunk_context (chunks : List (Chunk × ℚ)) : String :=
  String.intercalate "\n\n---\n\n" ((groupByPaper chunks).map formatChunkGroup)

/-! ## The chat endpoints: retrieval, context and sources
(main.py 624-683 and 713-744) -/

/-- One entry of relevant_papers as the chat endpoint builds it. -/
structure RP where
  title : Option String := none
  name : Option String := none
  year : Option String := none
  authors : Option String := none
  url : Option String := none
  relevance : ℚ := 0
deriving DecidableEq, Repr

/-- A cited source of the synchronous response (main.py 668-677). -/
structure Source where
  title : Option String := none
  year : Option String := none
  authors : Option String := none
  url : Option String := none
  relevance : ℚ := 0
deriving DecidableEq, Repr

/-- A cited source of the streaming response (main.py 741-744). -/
structure StreamSource where
  title : Option String := none
  year : Option String := none
  url : Option String := none
deriving DecidableEq, Repr

/-- Python round(x, 3).  Mathlib round is round-half-up while Python
rounds half to even; they agree except at exact half-thousandths, which no
claim exercises. -/
def round3 (q : ℚ) : ℚ :=
  ((round (1000 * q) : ℤ) : ℚ) / 1000

/-- relevant_papers entry from an accepted chunk (main.py 640-648): both
title and name are the metadata title. -/
def rpOfChunk (x : Chunk × ℚ) : RP :=
  { title := x.1.m_title, name := x.1.m_title, year := x.1.m_year,
    authors := x.1.m_authors, url := x.1.m_url, relevance := x.2 }

/-- relevant_papers entry from a paper-level result (main.py 651): the
merged paper dict with its relevance_score. -/
def rpOfPaper (x : Paper × ℚ) : RP :=
  { title := x.1.title, name := x.1.name, year := x.1.year,
    authors := x.1.authors, url := x.1.url, relevance := x.2 }

/-- The seen_papers dedup loop of the chunks branch (main.py 633-648):
one relevant_papers entry per owning paper, first appearance wins. -/
def dedupByPaper (chunks : List (Chunk × ℚ)) : List RP :=
  (chunks.foldl
    (fun (acc : List String × List RP) x =>
      if acc.1.contains x.1.paper_id then acc
      else (acc.1 ++ [x.1.paper_id], acc.2 ++ [rpOfChunk x]))
    ([], [])).2

/-- A source entry of the synchronous response (main.py 668-677). -/
def mkSource (r : RP) : Source :=
  { title := pyOr r.title r.name, year := r.year, authors := r.authors,
    url := r.url, relevance := round3 r.relevance }

/-- The retrieval, context-assembly and source-preparation portion of the
chat endpoint (main.py 624-677), after the gate has admitted the request.
The external generation collaborator consumes the context; the cited
sources and the choice of retrieval strategy are what the claims are
about.  Returns (whether chunk search was used, context, sources). -/
def chatCore (papersData : List Paper) (paperLookup : String → Option Paper)
    (paperEmbs : List (String × Vec)) (chunkLookup : String → Option Chunk)
    (chunkEmbs : List ChunkEmb) (use_chunks : Bool) (score : Vec → ℚ)
    (question : String) : Bool × String × List Source :=
  let meta_question := is_meta_question question
  let viaChunks := use_chunks && !meta_question
  let (relevant_papers, context) :=
    if viaChunks then
      let relevant_chunks := search_chunks chunkLookup chunkEmbs score 6 2
      (dedupByPaper relevant_chunks, format_chunk_context relevant_chunks)
    else
      let papers := search_papers paperLookup paperEmbs score 5
      (papers.map rpOfPaper, format_context papers)
  let context :=
    if meta_question then
      format_stats_context papersData ++ "\n\n=== SAMPLE RELEVANT PAPERS ===\n\n" ++ context
    else context
  (viaChunks, context, relevant_papers.map mkSource)

/-- The dedup loop of the streaming endpoint (main.py 720-731), whose
relevant_papers entries carry only title, year and url. -/
def dedupByPaperStream (chunks : List (Chunk × ℚ)) : List StreamSource :=
  (chunks.foldl
    (fun (acc : List String × List StreamSource) x =>
      if acc.1.contains x.1.paper_id then acc
      else (acc.1 ++ [x.1.paper_id],
        acc.2 ++ [{ title := x.1.m_title, year := x.1.m_year, url := x.1.m_url }]))
    ([], [])).2

/-- The retrieval, context-assembly and source-preparation portion of the
streaming chat endpoint (main.py 713-744): same branch structure, but the
sources sent first are only the first three results with title, year and
url (and no name fallback for the title). -/
def chatStreamCore (papersData : List Paper) (paperLookup : String → Option Paper)
    (paperEmbs : List (String × Vec)) (chunkLookup : String → Option Chunk)
    (chunkEmbs : List ChunkEmb) (use_chunks : Bool) (score : Vec → ℚ)
    (question : String) : Bool × String × List StreamSource :=
  let meta_question := is_meta_question question
  let viaChunks := use_chunks && !meta_question
  let (relevant_papers, context) :=
    if viaChunks then
      let relevant_chunks := search_chunks chunkLookup chunkEmbs score 6 2
      (dedupByPaperStream relevant_chunks, format_chunk_context relevant_chunks)
    else
      let papers := search_papers paperLookup paperEmbs score 5
      (papers.map (fun x =>
        ({ title := x.1.title, year := x.1.year, url := x.1.url } : StreamSource)),
       format_context papers)
  let context :=
    if meta_question then
      format_stats_context papersData ++ "\n\n=== SAMPLE RELEVANT PAPERS ===\n\n" ++ context
    else context
  (viaChunks, context, relevant_papers.take 3)

end RagChat

-- ===== END OF DEFINITIONS / START OF THEOREMS =====

namespace RagChat

/-- C1: the rate-limit check prunes the global sequence to 24 hours and
denies with global_limit at the global ceiling independently of any per-IP
state; otherwise it prunes the per-IP sequence and denies with hourly_limit
at 20 last-hour entries, then daily_limit at 100 total entries, else allows
with remaining quota min (20 - hourly) (100 - daily).  Stated as a
refinement: the decision of the embedded code equals the decision the
specification describes, and the global_limit branch ignores per-IP state. -/
theorem check_rate_limit_correct :
    (∀ (globalTimes ipTimes : List ℚ) (now : ℚ),
      (check_rate_limit globalTimes ipTimes now).1 = quotaDecisionSpec globalTimes ipTimes now)
    ∧
    (∀ (globalTimes ipTimes ipTimes' : List ℚ) (now : ℚ),
      500 ≤ (globalTimes.filter (fun t => now - 86400 < t)).length →
      (check_rate_limit globalTimes ipTimes now).1 = (false, 0, "global_limit") ∧
      (check_rate_limit globalTimes ipTimes now).1 =
        (check_rate_limit globalTimes ipTimes' now).1) := by
  constructor
  · intro g ip now
    simp only [check_rate_limit, quotaDecisionSpec, RATE_LIMIT, DAILY_LIMIT, GLOBAL_DAILY_LIMIT]
    split_ifs <;> rfl
  · intro g ip ip' now h
    have key : ∀ iq : List ℚ, (check_rate_limit g iq now).1 = (false, 0, "global_limit") := by
      intro iq
      simp only [check_rate_limit, GLOBAL_DAILY_LIMIT]
      rw [if_pos h]
    exact ⟨key ip, (key ip).trans (key ip').symm⟩

/-- Witness for C1 at concrete inputs: a pruned global sequence of 500
timestamps forces global_limit regardless of per-IP state, and the code
decision coincides with the specification decision. -/
theorem check_rate_limit_correct_witness :
    (check_rate_limit (List.replicate 500 1) [3] 2).1 = (false, 0, "global_limit") ∧
    (check_rate_limit [10] [10] 20).1 = quotaDecisionSpec [10] [10] 20 := by
  have h : 500 ≤ ((List.replicate 500 (1 : ℚ)).filter (fun t => (2 : ℚ) - 86400 < t)).length := by
    have he : (List.replicate 500 (1 : ℚ)).filter (fun t => (2 : ℚ) - 86400 < t) =
        List.replicate 500 (1 : ℚ) := by
      apply List.filter_eq_self.mpr
      intro a ha
      rw [List.eq_of_mem_replicate ha]
      simp only [decide_eq_true_eq]
      norm_num
    rw [he, List.length_replicate]
  exact ⟨(check_rate_limit_correct.2 (List.replicate 500 1) [3] [3] 2 h).1,
    check_rate_limit_correct.1 [10] [10] 20⟩

/-- C5 counterexample: a check-only call to check_rate_limit does mutate
the stored state.  With a stale timestamp 0 in both sequences and now =
100000, after the call both sequences have been pruned to [] rather than
remaining [0]. -/
theorem check_rate_limit_not_pure :
    (check_rate_limit [(0 : ℚ)] [(0 : ℚ)] 100000).2 ≠ ([(0 : ℚ)], [(0 : ℚ)]) := by
  have h : (check_rate_limit [(0 : ℚ)] [(0 : ℚ)] 100000).2 = ([], []) := by
    norm_num [check_rate_limit, List.filter_cons, List.filter_nil, decide_eq_true_eq,
      GLOBAL_DAILY_LIMIT, RATE_LIMIT, DAILY_LIMIT]
  rw [h]
  simp

/-- C5 amended: check_rate_limit does mutate state, but only by pruning:
the global sequence is replaced by its 24-hour filter, the per-IP sequence
by its 24-hour filter except on the global_limit early return (where it is
untouched), and no timestamp is ever added by the check; the current
timestamp is appended to both sequences only by the chat endpoint caller,
exactly once per admitted request. -/
theorem check_rate_limit_prune_only :
    ∀ (g ip : List ℚ) (now : ℚ),
      (check_rate_limit g ip now).2.1 = g.filter (fun t => now - 86400 < t) ∧
      ((check_rate_limit g ip now).1.2.2 = "global_limit" →
        (check_rate_limit g ip now).2.2 = ip) ∧
      ((check_rate_limit g ip now).1.2.2 ≠ "global_limit" →
        (check_rate_limit g ip now).2.2 = ip.filter (fun t => now - 86400 < t)) ∧
      (∀ t ∈ (check_rate_limit g ip now).2.1, t ∈ g) ∧
      (∀ t ∈ (check_rate_limit g ip now).2.2, t ∈ ip) ∧
      (∀ origin referer clientIP,
        validate_origin origin referer clientIP = true →
        (check_rate_limit g ip now).1.1 = true →
        chatGate origin referer clientIP g ip now =
          (some (check_rate_limit g ip now).1.2.1,
           g.filter (fun t => now - 86400 < t) ++ [now],
           ip.filter (fun t => now - 86400 < t) ++ [now])) := by
  intro g ip now
  have hmem : ∀ (l : List ℚ), ∀ t ∈ l.filter (fun t => now - 86400 < t), t ∈ l := by
    intro l t ht
    exact (List.mem_filter.mp ht).1
  simp only [check_rate_limit]
  split_ifs with h1 h2 h3
  · refine ⟨rfl, fun _ => rfl, fun hne => absurd rfl hne, hmem g, fun t ht => ht, ?_⟩
    intro o r c hv hallow
    simp at hallow
  · refine ⟨rfl, ?_, fun _ => rfl, hmem g, hmem ip, ?_⟩
    · intro hcontra
      simp at hcontra
    · intro o r c hv hallow
      simp at hallow
  · refine ⟨rfl, ?_, fun _ => rfl, hmem g, hmem ip, ?_⟩
    · intro hcontra
      simp at hcontra
    · intro o r c hv hallow
      simp at hallow
  · refine ⟨rfl, ?_, fun _ => rfl, hmem g, hmem ip, ?_⟩
    · intro hcontra
      simp at hcontra
    · intro o r c hv _
      simp only [chatGate, hv, Bool.true_eq_false, if_false, check_rate_limit]
      rw [if_neg h1, if_neg h2, if_neg h3]
      simp

/-- Witness for C5 amended at concrete inputs: stale entries are pruned,
fresh entries survive, and an admitted request appends now exactly once to
each sequence. -/
theorem check_rate_limit_prune_only_witness :
    (check_rate_limit [1, 100000] [2, 99999] 90000).2.1 = [100000] ∧
    (check_rate_limit [1, 100000] [2, 99999] 90000).2.2 = [99999] ∧
    chatGate "https://kordinglab.com" "" "1.2.3.4" [1, 100000] [2, 99999] 90000 =
      (some 19, [100000, 90000], [99999, 90000]) := by
  have h := check_rate_limit_prune_only [1, 100000] [2, 99999] 90000
  have hg : List.filter (fun t => decide ((90000 : ℚ) - 86400 < t)) [1, 100000] = [100000] := by
    norm_num [List.filter_cons, List.filter_nil, decide_eq_true_eq]
  have hip : List.filter (fun t => decide ((90000 : ℚ) - 86400 < t)) [2, 99999] = [99999] := by
    norm_num [List.filter_cons, List.filter_nil, decide_eq_true_eq]
  have hreason : (check_rate_limit [(1 : ℚ), 100000] [2, 99999] 90000).1.2.2 ≠ "global_limit" := by
    norm_num [check_rate_limit, List.filter_cons, List.filter_nil, decide_eq_true_eq,
      GLOBAL_DAILY_LIMIT, RATE_LIMIT, DAILY_LIMIT]
    decide
  have hallow : (check_rate_limit [(1 : ℚ), 100000] [2, 99999] 90000).1.1 = true := by
    norm_num [check_rate_limit, List.filter_cons, List.filter_nil, decide_eq_true_eq,
      GLOBAL_DAILY_LIMIT, RATE_LIMIT, DAILY_LIMIT]
  refine ⟨?_, ?_, ?_⟩
  · rw [h.1]; exact hg
  · rw [h.2.2.1 hreason]; exact hip
  · rw [h.2.2.2.2.2 "https://kordinglab.com" "" "1.2.3.4" (by decide) hallow]
    rw [hg, hip]
    norm_num [check_rate_limit, List.filter_cons, List.filter_nil, decide_eq_true_eq,
      GLOBAL_DAILY_LIMIT, RATE_LIMIT, DAILY_LIMIT]

/-- C6: origin validation admits a request iff the Origin header is present
(non-empty) and extends some allow-list entry, or the Referer header is
present and extends some allow-list entry, or neither header is present and
the client IP is one of the loopback identifiers; in particular the two
scenario inputs are admitted and denied as the specification says. -/
theorem validate_origin_correct :
    (∀ origin referer clientIP : String,
      validate_origin origin referer clientIP = true ↔
        ((origin ≠ "" ∧ ∃ allowed ∈ ALLOWED_ORIGINS, pyStartswith origin allowed = true) ∨
         (referer ≠ "" ∧ ∃ allowed ∈ ALLOWED_ORIGINS, pyStartswith referer allowed = true) ∨
         (origin = "" ∧ referer = "" ∧
           (clientIP = "127.0.0.1" ∨ clientIP = "::1" ∨ clientIP = "localhost")))) ∧
    validate_origin "https://kordinglab.com/page" "" "203.0.113.5" = true ∧
    validate_origin "https://evil.example" "" "203.0.113.5" = false := by
  refine ⟨?_, by decide, by decide⟩
  intro origin referer clientIP
  simp only [validate_origin]
  split_ifs with h1 h2 h3 h4
  · simp only [Bool.and_eq_true, bne_iff_ne, ne_eq, List.any_eq_true] at h1
    simp only [true_iff]
    exact Or.inl ⟨h1.1, h1.2⟩
  · simp only [Bool.and_eq_true, bne_iff_ne, ne_eq, List.any_eq_true] at h2
    simp only [true_iff]
    exact Or.inr (Or.inl ⟨h2.1, h2.2⟩)
  · simp only [Bool.and_eq_true, beq_iff_eq] at h3
    simp only [Bool.or_eq_true, beq_iff_eq] at h4
    rw [or_assoc] at h4
    simp only [true_iff]
    exact Or.inr (Or.inr ⟨h3.1, h3.2, h4⟩)
  · simp only [Bool.and_eq_true, beq_iff_eq] at h3
    simp only [Bool.or_eq_true, beq_iff_eq] at h4
    rw [or_assoc] at h4
    simp only [Bool.and_eq_true, bne_iff_ne, ne_eq, List.any_eq_true] at h1 h2
    constructor
    · intro hfalse
      exact absurd hfalse (by simp)
    · rintro (⟨ho, hex⟩ | ⟨hr, hex⟩ | ⟨ho, hr, hip⟩)
      · exact absurd ⟨ho, hex⟩ h1
      · exact absurd ⟨hr, hex⟩ h2
      · exact absurd hip h4
  · simp only [Bool.and_eq_true, beq_iff_eq] at h3
    simp only [Bool.and_eq_true, bne_iff_ne, ne_eq, List.any_eq_true] at h1 h2
    constructor
    · intro hfalse
      exact absurd hfalse (by simp)
    · rintro (⟨ho, hex⟩ | ⟨hr, hex⟩ | ⟨ho, hr, hip⟩)
      · exact absurd ⟨ho, hex⟩ h1
      · exact absurd ⟨hr, hex⟩ h2
      · exact absurd ⟨ho, hr⟩ h3

/-! Helper lemmas about the embedding cache. -/

theorem evictLoop_eq_drop (c : Cache) :
    evictLoop c = c.drop (c.length - EMBEDDING_CACHE_SIZE) := by
  induction c with
  | nil => rfl
  | cons e rest ih =>
    simp only [evictLoop]
    by_cases h : EMBEDDING_CACHE_SIZE < (e :: rest).length
    · rw [if_pos h, ih]
      have hm : (e :: rest).length - EMBEDDING_CACHE_SIZE =
          (rest.length - EMBEDDING_CACHE_SIZE) + 1 := by
        simp only [List.length_cons, EMBEDDING_CACHE_SIZE] at h ⊢
        omega
      rw [hm, List.drop_succ_cons]
    · rw [if_neg h]
      have hm : (e :: rest).length - EMBEDDING_CACHE_SIZE = 0 := by
        simp only [List.length_cons, EMBEDDING_CACHE_SIZE, not_lt] at h ⊢
        omega
      rw [hm, List.drop_zero]

theorem evictLoop_length (c : Cache) :
    (evictLoop c).length = min c.length 100 := by
  rw [evictLoop_eq_drop, List.length_drop]
  simp only [EMBEDDING_CACHE_SIZE]
  omega

theorem lookupCache_eq_none_iff {c : Cache} {k : String} :
    lookupCache c k = none ↔ ∀ e ∈ c, e.1 ≠ k := by
  simp [lookupCache, List.find?_eq_none]

theorem find?_key_append_none {c₁ c₂ : Cache} {k : String}
    (h : ∀ e ∈ c₁, e.1 ≠ k) :
    (c₁ ++ c₂).find? (fun e => e.1 == k) = c₂.find? (fun e => e.1 == k) := by
  induction c₁ with
  | nil => simp
  | cons e rest ih =>
    have he : (e.1 == k) = false := by
      simpa using h e (by simp)
    rw [List.cons_append, List.find?_cons, he]
    exact ih (fun x hx => h x (by simp [hx]))

theorem lookupCache_moveToEnd (c : Cache) (k : String) (v : Vec) :
    lookupCache (moveToEnd c k v) k = some v := by
  have h : ∀ e ∈ c.filter (fun e => e.1 != k), e.1 ≠ k := by
    intro e he
    simpa using (List.mem_filter.mp he).2
  simp [moveToEnd, lookupCache, find?_key_append_none h, List.find?]

theorem lookupCache_evict_insert {c : Cache} {k : String} {v : Vec}
    (h : lookupCache c k = none) :
    lookupCache (evictLoop (c ++ [(k, v)])) k = some v := by
  rw [evictLoop_eq_drop]
  have hlen : (c ++ [(k, v)]).length - EMBEDDING_CACHE_SIZE ≤ c.length := by
    simp only [List.length_append, List.length_singleton, EMBEDDING_CACHE_SIZE]
    omega
  rw [List.drop_append_of_le_length hlen]
  have hnone : lookupCache (c.drop ((c ++ [(k, v)]).length - EMBEDDING_CACHE_SIZE)) k = none :=
    lookupCache_eq_none_iff.mpr
      (fun e he => lookupCache_eq_none_iff.mp h e (List.mem_of_mem_drop he))
  have h' := lookupCache_eq_none_iff.mp hnone
  simp only [lookupCache]
  rw [find?_key_append_none h']
  simp [List.find?]

theorem length_moveToEnd_le {c : Cache} {k : String} {v w : Vec}
    (h : lookupCache c k = some w) :
    (moveToEnd c k v).length ≤ c.length := by
  obtain ⟨e, he, -⟩ := Option.map_eq_some'.mp h
  have hmem := List.mem_of_find?_eq_some he
  have hpe := List.find?_some he
  have hlt : (c.filter (fun e => e.1 != k)).length < c.length := by
    apply List.length_filter_lt_length_iff_exists.mpr
    exact ⟨e, hmem, by simp_all⟩
  simp only [moveToEnd, List.length_append, List.length_singleton]
  omega

/-- C2: the embedding cache is a capacity-100 LRU cache: every operation
leaves at most 100 entries; a miss inserted into a full cache of 100
entries evicts exactly the least-recently-used (front) entry, the new
entry entering at the most-recently-used end; and a hit moves its entry
to the most-recently-used end, so that after a hit the hit key survives
the next overflowing insertion. -/
theorem get_query_embedding_lru :
    (∀ (embed : String → Vec) (c : Cache) (q : String),
      c.length ≤ 100 → ((get_query_embedding embed c q).2.1).length ≤ 100) ∧
    (∀ (embed : String → Vec) (c : Cache) (q : String),
      c.length = 100 → lookupCache c (cacheKey q) = none →
      (get_query_embedding embed c q).2.1 = c.tail ++ [(cacheKey q, embed q)]) ∧
    (∀ (embed : String → Vec) (c : Cache) (q q' : String) (v : Vec),
      c.length = 100 →
      lookupCache c (cacheKey q) = some v →
      lookupCache ((get_query_embedding embed c q).2.1) (cacheKey q') = none →
      cacheKey q ∈
        ((get_query_embedding embed ((get_query_embedding embed c q).2.1) q').2.1).map
          Prod.fst) := by
  refine ⟨?_, ?_, ?_⟩
  · intro embed c q hle
    cases h1 : lookupCache c (cacheKey q) with
    | some v =>
      simp only [get_query_embedding, h1]
      exact le_trans (length_moveToEnd_le h1) hle
    | none =>
      simp only [get_query_embedding, h1]
      rw [evictLoop_length]
      omega
  · intro embed c q hlen h1
    simp only [get_query_embedding, h1]
    rw [evictLoop_eq_drop]
    have hm : (c ++ [(cacheKey q, embed q)]).length - EMBEDDING_CACHE_SIZE = 1 := by
      simp only [List.length_append, List.length_singleton, EMBEDDING_CACHE_SIZE, hlen]
    rw [hm, List.drop_append_of_le_length (by omega), List.drop_one]
  · intro embed c q q' v hlen h1 h2
    simp only [get_query_embedding, h1] at h2 ⊢
    cases h3 : lookupCache (moveToEnd c (cacheKey q) v) (cacheKey q') with
    | some w =>
      rw [h2] at h3
      exact absurd h3 (by simp)
    | none =>
      simp only [h3]
      rw [evictLoop_eq_drop]
      have hF : (c.filter (fun e => e.1 != cacheKey q)).length < 100 := by
        obtain ⟨e, he, -⟩ := Option.map_eq_some'.mp h1
        have hmem := List.mem_of_find?_eq_some he
        have hpe := List.find?_some he
        have := List.length_filter_lt_length_iff_exists.mpr
          (⟨e, hmem, by simp_all⟩ :
            ∃ x ∈ c, ¬((fun e => e.1 != cacheKey q) x = true))
        omega
      have hm : (moveToEnd c (cacheKey q) v ++ [(cacheKey q', embed q')]).length -
          EMBEDDING_CACHE_SIZE ≤ (c.filter (fun e => e.1 != cacheKey q)).length := by
        simp only [moveToEnd, List.length_append, List.length_singleton,
          EMBEDDING_CACHE_SIZE]
        omega
      have hsplit : moveToEnd c (cacheKey q) v ++ [(cacheKey q', embed q')] =
          c.filter (fun e => e.1 != cacheKey q) ++
            ([(cacheKey q, v)] ++ [(cacheKey q', embed q')]) := by
        simp [moveToEnd]
      rw [hsplit]
      rw [List.drop_append_of_le_length (by simpa [moveToEnd] using hm)]
      simp

/-- Witness for C2 at a concrete full cache of 100 entries: the insertion
of a fresh query evicts exactly the front entry, and a key hit just before
an overflowing insertion survives it. -/
theorem get_query_embedding_lru_witness :
    (((get_query_embedding (fun _ => [])
        ((List.range 100).map (fun i => (toString i, ([] : Vec)))) "x").2.1).length ≤ 100) ∧
    ((get_query_embedding (fun _ => [])
        ((List.range 100).map (fun i => (toString i, ([] : Vec)))) "x").2.1 =
      ((List.range 100).map (fun i => (toString i, ([] : Vec)))).tail ++
        [(cacheKey "x", [])]) ∧
    (cacheKey "5" ∈
      ((get_query_embedding (fun _ => [])
        ((get_query_embedding (fun _ => [])
          ((List.range 100).map (fun i => (toString i, ([] : Vec)))) "5").2.1) "x").2.1).map
        Prod.fst) := by
  refine ⟨?_, ?_, ?_⟩
  · exact get_query_embedding_lru.1 (fun _ => [])
      ((List.range 100).map (fun i => (toString i, ([] : Vec)))) "x" (by simp)
  · exact get_query_embedding_lru.2.1 (fun _ => [])
      ((List.range 100).map (fun i => (toString i, ([] : Vec)))) "x" (by simp) (by decide)
  · exact get_query_embedding_lru.2.2 (fun _ => [])
      ((List.range 100).map (fun i => (toString i, ([] : Vec)))) "5" "x" []
      (by simp) (by decide) (by decide)

/-- C7: getEmbedding is idempotent with respect to the embedding
collaborator: for queries equal after case-folding and whitespace-trimming,
a second call returns the vector the first call returned and does not
invoke the collaborator (so the pair of calls invokes it at most once, in
either order); and a hit returns the cached vector with no collaborator
call. -/
theorem get_query_embedding_idempotent :
    ∀ (embed : String → Vec) (c : Cache) (q1 q2 : String),
      cacheKey q1 = cacheKey q2 →
      (get_query_embedding embed ((get_query_embedding embed c q1).2.1) q2).1 =
        (get_query_embedding embed c q1).1 ∧
      (get_query_embedding embed ((get_query_embedding embed c q1).2.1) q2).2.2 = false ∧
      (∀ v, lookupCache c (cacheKey q1) = some v →
        (get_query_embedding embed c q1).2.2 = false ∧
        (get_query_embedding embed c q1).1 = v) := by
  intro embed c q1 q2 hkey
  cases h1 : lookupCache c (cacheKey q1) with
  | some v =>
    have h2 : lookupCache (moveToEnd c (cacheKey q1) v) (cacheKey q2) = some v := by
      rw [← hkey]
      exact lookupCache_moveToEnd c (cacheKey q1) v
    refine ⟨?_, ?_, ?_⟩
    · simp only [get_query_embedding, h1, h2]
    · simp only [get_query_embedding, h1, h2]
    · intro w hw
      simp only [get_query_embedding, h1]
      exact ⟨by trivial, Option.some.inj hw⟩
  | none =>
    have h2 : lookupCache (evictLoop (c ++ [(cacheKey q1, embed q1)])) (cacheKey q2) =
        some (embed q1) := by
      rw [← hkey]
      exact lookupCache_evict_insert h1
    refine ⟨?_, ?_, ?_⟩
    · simp only [get_query_embedding, h1, h2]
    · simp only [get_query_embedding, h1, h2]
    · intro w hw
      exact absurd hw (by simp)

/-! Helper lemmas about the stable descending sort. -/

theorem withIdx_map_snd {α : Type} (n : ℕ) (l : List α) :
    (withIdx n l).map Prod.snd = l := by
  induction l generalizing n with
  | nil => rfl
  | cons a l ih => simp [withIdx, ih]

theorem withIdx_fst_ge {α : Type} (n : ℕ) (l : List α) :
    ∀ x ∈ withIdx n l, n ≤ x.1 := by
  induction l generalizing n with
  | nil => intro x hx; simp [withIdx] at hx
  | cons a l ih =>
    intro x hx
    simp only [withIdx, List.mem_cons] at hx
    rcases hx with rfl | hx
    · exact le_refl n
    · exact le_trans (Nat.le_succ n) (ih (n + 1) x hx)

theorem withIdx_fst_lt {α : Type} (n : ℕ) (l : List α) :
    (withIdx n l).Pairwise (fun a b => a.1 < b.1) := by
  induction l generalizing n with
  | nil => exact List.Pairwise.nil
  | cons a l ih =>
    refine List.Pairwise.cons ?_ (ih (n + 1))
    intro x hx
    exact lt_of_lt_of_le (Nat.lt_succ_self n) (withIdx_fst_ge (n + 1) l x hx)

theorem sortDescIdx_sorted {α K : Type} [LinearOrder K] (key : α → K) (l : List α) :
    (sortDescIdx key l).Sorted (keyRelD key) :=
  List.sorted_insertionSort _ _

theorem sortDescIdx_perm {α K : Type} [LinearOrder K] (key : α → K) (l : List α) :
    List.Perm (sortDescIdx key l) (withIdx 0 l) :=
  List.perm_insertionSort _ _

theorem sortDesc_perm {α K : Type} [LinearOrder K] (key : α → K) (l : List α) :
    List.Perm (sortDesc key l) l := by
  have h := (sortDescIdx_perm key l).map Prod.snd
  rwa [withIdx_map_snd] at h

theorem sortDescIdx_fst_nodup {α K : Type} [LinearOrder K] (key : α → K) (l : List α) :
    ((sortDescIdx key l).map Prod.fst).Nodup := by
  have hp : ((withIdx 0 l).map Prod.fst).Nodup :=
    List.pairwise_map.mpr ((withIdx_fst_lt 0 l).imp fun h => Nat.ne_of_lt h)
  exact ((sortDescIdx_perm key l).map Prod.fst).symm.nodup hp

theorem sortDescIdx_pairwise_strict {α K : Type} [LinearOrder K] (key : α → K) (l : List α) :
    (sortDescIdx key l).Pairwise
      (fun a b => key b.2 < key a.2 ∨ (key a.2 = key b.2 ∧ a.1 < b.1)) := by
  have hs : (sortDescIdx key l).Pairwise (keyRelD key) := sortDescIdx_sorted key l
  have hne : (sortDescIdx key l).Pairwise (fun a b => a.1 ≠ b.1) :=
    List.pairwise_map.mp (sortDescIdx_fst_nodup key l)
  refine (hs.and hne).imp ?_
  rintro a b ⟨hab | ⟨hk, hi⟩, hne⟩
  · exact Or.inl hab
  · exact Or.inr ⟨hk, lt_of_le_of_ne hi hne⟩

theorem pairwise_key_sortDesc {α K : Type} [LinearOrder K] (key : α → K) (l : List α) :
    (sortDesc key l).Pairwise (fun a b => key b ≤ key a) := by
  apply List.pairwise_map.mpr
  refine (sortDescIdx_sorted key l).imp ?_
  rintro a b (h | ⟨h, -⟩)
  · exact le_of_lt h
  · exact h.ge

/-- C4: the cosine-similarity expression divides by the product of norms
without any guard, so a zero-norm vector does not get similarity 0: the
float division produces NaN (modelled none), for every square-root
function with sqrt 0 = 0. -/
theorem cosine_similarity_zero_norm :
    ∀ sqrt : ℚ → ℚ, sqrt 0 = 0 →
      cosine_similarity sqrt [0, 0] [1, 0] = none ∧
      cosine_similarity sqrt [0, 0] [1, 0] ≠ some 0 := by
  intro sqrt h
  have hz : normSq [(0 : ℚ), 0] = 0 := by
    norm_num [normSq, dotList]
  have : cosine_similarity sqrt [0, 0] [1, 0] = none := by
    simp [cosine_similarity, hz, h]
  exact ⟨this, by simp [this]⟩

/-- Witness for C4 with a concrete square-root stand-in. -/
theorem cosine_similarity_zero_norm_witness :
    cosine_similarity (fun x => x) [0, 0] [1, 0] = none :=
  (cosine_similarity_zero_norm (fun x => x) rfl).1

/-- C9 counterexample: the year table of DatasetStats is not ordered by
descending frequency.  For the corpus with years 2020, 2020, 2021 the code
produces by_year = [(2021, 1), (2020, 2)] (sorted by year key descending),
whose counts increase. -/
theorem compute_dataset_stats_year_order :
    ¬ ((compute_dataset_stats
        [{ year := some "2020" }, { year := some "2020" },
         { year := some "2021" }]).by_year.Pairwise (fun a b => b.2 ≤ a.2)) := by
  decide

/-- C9 amended: total_papers is the corpus size; the species and topic
tables are stored in descending frequency order with ties broken by
first-seen order (strictly: on the position-annotated sort, equal counts
appear in increasing first-seen position), and each is a permutation of
the corresponding first-seen frequency table; the year table is instead
stored in descending order of the year string (most recent year first) and
is a permutation of the year frequency table.  The specification scenario
(years 2020, 2021, 2021 giving total_papers = 3 and by_year =
[(2021, 2), (2020, 1)] in that order) holds. -/
theorem compute_dataset_stats_correct :
    (∀ papers : List Paper,
      (compute_dataset_stats papers).total_papers = papers.length ∧
      ((compute_dataset_stats papers).by_species).Pairwise (fun a b => b.2 ≤ a.2) ∧
      ((compute_dataset_stats papers).by_topic).Pairwise (fun a b => b.2 ≤ a.2) ∧
      (sortDescIdx (fun e => e.2) (speciesCounts papers)).Pairwise
        (fun a b => b.2.2 < a.2.2 ∨ (a.2.2 = b.2.2 ∧ a.1 < b.1)) ∧
      (sortDescIdx (fun e => e.2) (topicCounts papers)).Pairwise
        (fun a b => b.2.2 < a.2.2 ∨ (a.2.2 = b.2.2 ∧ a.1 < b.1)) ∧
      ((compute_dataset_stats papers).by_species).Perm (speciesCounts papers) ∧
      ((compute_dataset_stats papers).by_topic).Perm (topicCounts papers) ∧
      ((compute_dataset_stats papers).by_year).Pairwise
        (fun a b => b.1.toList ≤ a.1.toList) ∧
      ((compute_dataset_stats papers).by_year).Perm (yearCounts papers)) ∧
    (compute_dataset_stats
      [{ year := some "2020" }, { year := some "2021" },
       { year := some "2021" }]).total_papers = 3 ∧
    (compute_dataset_stats
      [{ year := some "2020" }, { year := some "2021" },
       { year := some "2021" }]).by_year = [("2021", 2), ("2020", 1)] := by
  refine ⟨fun papers => ?_, by decide, by decide⟩
  refine ⟨rfl, ?_, ?_, ?_, ?_, ?_, ?_, ?_, ?_⟩
  · simpa [compute_dataset_stats] using
      pairwise_key_sortDesc (fun e : String × ℕ => e.2) (speciesCounts papers)
  · simpa [compute_dataset_stats] using
      pairwise_key_sortDesc (fun e : String × ℕ => e.2) (topicCounts papers)
  · simpa using sortDescIdx_pairwise_strict (fun e : String × ℕ => e.2) (speciesCounts papers)
  · simpa using sortDescIdx_pairwise_strict (fun e : String × ℕ => e.2) (topicCounts papers)
  · simpa [compute_dataset_stats] using
      sortDesc_perm (fun e : String × ℕ => e.2) (speciesCounts papers)
  · simpa [compute_dataset_stats] using
      sortDesc_perm (fun e : String × ℕ => e.2) (topicCounts papers)
  · simpa [compute_dataset_stats] using
      pairwise_key_sortDesc (fun e : String × ℕ => e.1.toList) (yearCounts papers)
  · simpa [compute_dataset_stats] using
      sortDesc_perm (fun e : String × ℕ => e.1.toList) (yearCounts papers)

/-- Witness for C7 at concrete inputs: the queries " MacaQUE " and
"macaque" share a normalized key; starting from the empty cache the first
call invokes the collaborator, the second call returns the same vector
without invoking it. -/
theorem get_query_embedding_idempotent_witness :
    (get_query_embedding (fun _ => [1])
      ((get_query_embedding (fun _ => [1]) [] " MacaQUE ").2.1) "macaque").1 =
      (get_query_embedding (fun _ => [1]) [] " MacaQUE ").1 ∧
    (get_query_embedding (fun _ => [1])
      ((get_query_embedding (fun _ => [1]) [] " MacaQUE ").2.1) "macaque").2.2 = false := by
  have h := get_query_embedding_idempotent (fun _ => [1]) [] " MacaQUE " "macaque" (by decide)
  exact ⟨h.1, h.2.1⟩

/-- Witness for C6 at a fresh concrete input, applying the
characterization. -/
theorem validate_origin_correct_witness :
    validate_origin "https://kordinglab.com/docs" "" "8.8.8.8" = true :=
  (validate_origin_correct.1 "https://kordinglab.com/docs" "" "8.8.8.8").mpr
    (Or.inl ⟨by decide, "https://kordinglab.com", by decide, by decide⟩)

/-- C8: paper-level search returns papers sorted in descending order of
similarity score, at most top_k of them; ties in the underlying ranking
are broken stably by original corpus position (strictly increasing
positions among equal scores); and the result is exactly the top_k prefix
of the stable descending ranking with ids lacking a corpus-lookup match
dropped, each survivor annotated with its score. -/
theorem search_papers_correct :
    ∀ (lookup : String → Option Paper) (paperEmbs : List (String × Vec))
      (score : Vec → ℚ) (top_k : ℕ),
      (search_papers lookup paperEmbs score top_k).length ≤ top_k ∧
      (search_papers lookup paperEmbs score top_k).Pairwise (fun a b => b.2 ≤ a.2) ∧
      (sortDescIdx (fun x : String × ℚ => x.2)
        (paperEmbs.map (fun e => (e.1, score e.2)))).Pairwise
        (fun a b => b.2.2 < a.2.2 ∨ (a.2.2 = b.2.2 ∧ a.1 < b.1)) ∧
      search_papers lookup paperEmbs score top_k =
        ((sortDesc (fun x : String × ℚ => x.2)
            (paperEmbs.map (fun e => (e.1, score e.2)))).take top_k).filterMap
          (fun x => (lookup x.1).map (fun p => (p, x.2))) := by
  intro lookup paperEmbs score top_k
  have hchar : search_papers lookup paperEmbs score top_k =
      ((sortDesc (fun x : String × ℚ => x.2)
          (paperEmbs.map (fun e => (e.1, score e.2)))).take top_k).filterMap
        (fun x => (lookup x.1).map (fun p => (p, x.2))) := by
    by_cases h : paperEmbs.isEmpty
    · have he : paperEmbs = [] := List.isEmpty_iff.mp h
      subst he
      simp [search_papers, sortDesc, sortDescIdx, withIdx, List.insertionSort]
    · simp [search_papers, h]
  refine ⟨?_, ?_, ?_, hchar⟩
  · rw [hchar]
    exact le_trans (List.length_filterMap_le _ _) (List.length_take_le _ _)
  · rw [hchar]
    apply List.pairwise_filterMap.mpr
    have h1 : ((sortDesc (fun x : String × ℚ => x.2)
        (paperEmbs.map (fun e => (e.1, score e.2)))).take top_k).Pairwise
        (fun a b => b.2 ≤ a.2) :=
      (pairwise_key_sortDesc (fun x : String × ℚ => x.2)
        (paperEmbs.map (fun e => (e.1, score e.2)))).sublist (List.take_sublist _ _)
    refine h1.imp ?_
    intro a b hab x hx y hy
    simp only [Option.mem_def, Option.map_eq_some'] at hx hy
    obtain ⟨p, -, rfl⟩ := hx
    obtain ⟨p', -, rfl⟩ := hy
    exact hab
  · exact sortDescIdx_pairwise_strict (fun x : String × ℚ => x.2)
      (paperEmbs.map (fun e => (e.1, score e.2)))

/-! Helper lemmas about the chunk selection loop. -/

theorem selectDiverse_length_le {lookup : String → Option Chunk} {mpp tk : ℕ} :
    ∀ (l : List (String × String × ℚ)) (counts : String → ℕ)
      (results : List (Chunk × ℚ)),
      results.length < tk →
      (selectDiverse lookup mpp tk l counts results).length ≤ tk := by
  intro l
  induction l with
  | nil =>
    intro counts results h
    exact le_of_lt h
  | cons hd rest ih =>
    obtain ⟨cid, pid, s⟩ := hd
    intro counts results h
    simp only [selectDiverse]
    by_cases h1 : mpp ≤ counts pid
    · rw [if_pos h1]
      exact ih counts results h
    · rw [if_neg h1]
      cases hl : lookup cid with
      | none =>
        simp only [hl]
        by_cases h2 : tk ≤ results.length
        · rw [if_pos h2]
          exact le_of_lt h
        · rw [if_neg h2]
          exact ih counts results h
      | some c =>
        simp only [hl]
        by_cases h2 : tk ≤ (results ++ [(c, s)]).length
        · rw [if_pos h2]
          simpa using Nat.succ_le_of_lt h
        · rw [if_neg h2]
          apply ih
          simp only [List.length_append, List.length_singleton] at h2 ⊢
          omega

theorem selectDiverse_count {lookup : String → Option Chunk} {mpp tk : ℕ} :
    ∀ (l : List (String × String × ℚ)) (counts : String → ℕ)
      (results : List (Chunk × ℚ)),
      (∀ x ∈ l, ∀ c, lookup x.1 = some c → c.paper_id = x.2.1) →
      (∀ pid, (results.filter (fun r => r.1.paper_id == pid)).length ≤ counts pid) →
      (∀ pid, counts pid ≤ mpp) →
      ∀ pid, ((selectDiverse lookup mpp tk l counts results).filter
        (fun r => r.1.paper_id == pid)).length ≤ mpp := by
  intro l
  induction l with
  | nil =>
    intro counts results _ hinv hbound pid
    exact le_trans (hinv pid) (hbound pid)
  | cons hd rest ih =>
    obtain ⟨cid, pid0, s⟩ := hd
    intro counts results hco hinv hbound pid
    simp only [selectDiverse]
    by_cases h1 : mpp ≤ counts pid0
    · rw [if_pos h1]
      exact ih counts results (fun x hx => hco x (by simp [hx])) hinv hbound pid
    · rw [if_neg h1]
      cases hl : lookup cid with
      | none =>
        simp only [hl]
        by_cases h2 : tk ≤ results.length
        · rw [if_pos h2]
          exact le_trans (hinv pid) (hbound pid)
        · rw [if_neg h2]
          exact ih counts results (fun x hx => hco x (by simp [hx])) hinv hbound pid
      | some c =>
        simp only [hl]
        have hcp : c.paper_id = pid0 := hco (cid, pid0, s) (by simp) c hl
        have hinv' : ∀ pd,
            ((results ++ [(c, s)]).filter (fun r => r.1.paper_id == pd)).length ≤
              (fun p => if p = pid0 then counts pid0 + 1 else counts p) pd := by
          intro pd
          rw [List.filter_append]
          by_cases hpd : pd = pid0
          · subst hpd
            have hone : (([(c, s)] : List (Chunk × ℚ)).filter
                (fun r => r.1.paper_id == pd)).length ≤ 1 := by
              simpa using List.length_filter_le
                (fun r : Chunk × ℚ => r.1.paper_id == pd) [(c, s)]
            have h0 := hinv pd
            have hif : (fun p => if p = pd then counts pd + 1 else counts p) pd =
                counts pd + 1 := by
              simp
            rw [List.length_append, hif]
            omega
          · have hzero : (([(c, s)] : List (Chunk × ℚ)).filter
                (fun r => r.1.paper_id == pd)).length = 0 := by
              simp [hcp, Ne.symm hpd]
            have hif : (fun p => if p = pid0 then counts pid0 + 1 else counts p) pd =
                counts pd := by
              simp [hpd]
            rw [List.length_append, hzero, hif]
            simpa using hinv pd
        have hbound' : ∀ pd,
            (fun p => if p = pid0 then counts pid0 + 1 else counts p) pd ≤ mpp := by
          intro pd
          by_cases hpd : pd = pid0
          · subst hpd
            have hif : (fun p => if p = pd then counts pd + 1 else counts p) pd =
                counts pd + 1 := by
              simp
            rw [hif]
            omega
          · have hif : (fun p => if p = pid0 then counts pid0 + 1 else counts p) pd =
                counts pd := by
              simp [hpd]
            rw [hif]
            exact hbound pd
        by_cases h2 : tk ≤ (results ++ [(c, s)]).length
        · rw [if_pos h2]
          exact le_trans (hinv' pid) (hbound' pid)
        · rw [if_neg h2]
          exact ih _ _ (fun x hx => hco x (by simp [hx])) hinv' hbound' pid

theorem selectDiverse_scores {lookup : String → Option Chunk} {mpp tk : ℕ} :
    ∀ (l : List (String × String × ℚ)) (counts : String → ℕ)
      (results : List (Chunk × ℚ)),
      ∃ t, List.Sublist t (l.map (fun x => x.2.2)) ∧
        (selectDiverse lookup mpp tk l counts results).map Prod.snd =
          results.map Prod.snd ++ t := by
  intro l
  induction l with
  | nil =>
    intro counts results
    exact ⟨[], List.nil_sublist _, by simp [selectDiverse]⟩
  | cons hd rest ih =>
    obtain ⟨cid, pid0, s⟩ := hd
    intro counts results
    simp only [selectDiverse, List.map_cons]
    by_cases h1 : mpp ≤ counts pid0
    · rw [if_pos h1]
      obtain ⟨t, ht, heq⟩ := ih counts results
      exact ⟨t, ht.cons s, heq⟩
    · rw [if_neg h1]
      cases hl : lookup cid with
      | none =>
        simp only [hl]
        by_cases h2 : tk ≤ results.length
        · rw [if_pos h2]
          exact ⟨[], List.nil_sublist _, by simp⟩
        · rw [if_neg h2]
          obtain ⟨t, ht, heq⟩ := ih counts results
          exact ⟨t, ht.cons s, heq⟩
      | some c =>
        simp only [hl]
        by_cases h2 : tk ≤ (results ++ [(c, s)]).length
        · rw [if_pos h2]
          exact ⟨[s], (List.nil_sublist _).cons₂ s, by simp⟩
        · rw [if_neg h2]
          obtain ⟨t, ht, heq⟩ := ih
            (fun p => if p = pid0 then counts pid0 + 1 else counts p)
            (results ++ [(c, s)])
          refine ⟨s :: t, ht.cons₂ s, ?_⟩
          rw [heq]
          simp

/-- C3 counterexample to the claim as stated: with top_k = 0 the loop
still accepts the first eligible chunk before the stop check runs, so the
result has one element, not at most zero. -/
theorem search_chunks_topk_zero :
    ¬ ((search_chunks
        (fun cid => if cid = "c1" then
          some { chunk_id := "c1", paper_id := "p1" } else none)
        [{ chunk_id := "c1", paper_id := "p1", embedding := [] }]
        (fun _ => 0) 0 2).length ≤ 0) := by
  decide

/-- C3 amended: for every top_k ≥ 1 the chunk search returns at most top_k
chunks (with top_k = 0 it still accepts one chunk, as the counterexample
shows); for every paper at most max_per_paper returned chunks belong to
it (given that the chunk index is coherent: a chunk found under an
embedding entry carries that entry's paper id); and the returned chunks
appear in descending similarity order, being accepted in a single walk of
the stable similarity-sorted ranking. -/
theorem search_chunks_diversity :
    ∀ (lookup : String → Option Chunk) (chunkEmbs : List ChunkEmb) (score : Vec → ℚ)
      (top_k max_per_paper : ℕ),
      (∀ e ∈ chunkEmbs, ∀ c, lookup e.chunk_id = some c → c.paper_id = e.paper_id) →
      (1 ≤ top_k →
        (search_chunks lookup chunkEmbs score top_k max_per_paper).length ≤ top_k) ∧
      (∀ pid, ((search_chunks lookup chunkEmbs score top_k max_per_paper).filter
        (fun r => r.1.paper_id == pid)).length ≤ max_per_paper) ∧
      (search_chunks lookup chunkEmbs score top_k max_per_paper).Pairwise
        (fun a b => b.2 ≤ a.2) := by
  intro lookup chunkEmbs score top_k max_per_paper hco
  by_cases h : chunkEmbs.isEmpty
  · simp [search_chunks, h]
  · have hopen : search_chunks lookup chunkEmbs score top_k max_per_paper =
        selectDiverse lookup max_per_paper top_k
          (sortDesc (fun x : String × String × ℚ => x.2.2)
            (chunkEmbs.map (fun e => (e.chunk_id, e.paper_id, score e.embedding))))
          (fun _ => 0) [] := by
      simp [search_chunks, h]
    have hcor : ∀ x ∈ sortDesc (fun x : String × String × ℚ => x.2.2)
        (chunkEmbs.map (fun e => (e.chunk_id, e.paper_id, score e.embedding))),
        ∀ c, lookup x.1 = some c → c.paper_id = x.2.1 := by
      intro x hx c hc
      have hx' : x ∈ chunkEmbs.map (fun e => (e.chunk_id, e.paper_id, score e.embedding)) :=
        (sortDesc_perm _ _).mem_iff.mp hx
      obtain ⟨e, he, rfl⟩ := List.mem_map.mp hx'
      exact hco e he c hc
    refine ⟨?_, ?_, ?_⟩
    · intro htk
      rw [hopen]
      exact selectDiverse_length_le _ _ _ (by simpa using htk)
    · intro pid
      rw [hopen]
      exact selectDiverse_count _ _ _ hcor (fun _ => by simp) (fun _ => Nat.zero_le _) pid
    · rw [hopen]
      obtain ⟨t, ht, heq⟩ := @selectDiverse_scores lookup max_per_paper top_k
        (sortDesc (fun x : String × String × ℚ => x.2.2)
          (chunkEmbs.map (fun e => (e.chunk_id, e.paper_id, score e.embedding))))
        (fun _ => 0) []
      have hp : ((sortDesc (fun x : String × String × ℚ => x.2.2)
          (chunkEmbs.map (fun e => (e.chunk_id, e.paper_id, score e.embedding)))).map
          (fun x => x.2.2)).Pairwise (fun a b => b ≤ a) :=
        List.pairwise_map.mpr (pairwise_key_sortDesc _ _)
      have hm : ((selectDiverse lookup max_per_paper top_k
          (sortDesc (fun x : String × String × ℚ => x.2.2)
            (chunkEmbs.map (fun e => (e.chunk_id, e.paper_id, score e.embedding))))
          (fun _ => 0) []).map Prod.snd).Pairwise (fun a b => b ≤ a) := by
        rw [heq]
        simp only [List.map_nil, List.nil_append]
        exact hp.sublist ht
      exact List.Pairwise.of_map Prod.snd (fun _ _ hh => hh) hm

/-- Witness for C3 at concrete inputs: two chunks of one paper with a
coherent lookup, top_k = 6 and max_per_paper = 2. -/
theorem search_chunks_diversity_witness :
    ((search_chunks
        (fun cid => if cid = "c1" then
          some { chunk_id := "c1", paper_id := "p1" } else none)
        [{ chunk_id := "c1", paper_id := "p1", embedding := [] }]
        (fun _ => 0) 6 2).length ≤ 6) ∧
    (∀ pid, ((search_chunks
        (fun cid => if cid = "c1" then
          some { chunk_id := "c1", paper_id := "p1" } else none)
        [{ chunk_id := "c1", paper_id := "p1", embedding := [] }]
        (fun _ => 0) 6 2).filter (fun r => r.1.paper_id == pid)).length ≤ 2) := by
  have h := search_chunks_diversity
    (fun cid => if cid = "c1" then
      some { chunk_id := "c1", paper_id := "p1" } else none)
    [{ chunk_id := "c1", paper_id := "p1", embedding := [] }]
    (fun _ => 0) 6 2 ?hco
  · exact ⟨h.1 (by norm_num), h.2.1⟩
  case hco =>
    intro e he c hc
    simp only [List.mem_singleton] at he
    subst he
    simp only [if_pos rfl] at hc
    cases hc
    rfl

/-- C10: on both the synchronous and the streaming endpoint, a
meta-question never invokes chunk search even when the chunk index is
loaded (use_chunks arbitrary, in particular true): retrieval falls back to
paper-level search with top_k 5, the statistics block is prepended to the
paper-level context, and the cited sources are derived from the
paper-level results (all of them on the synchronous endpoint, the first
three on the streaming one). -/
theorem chat_meta_question_paper_path :
    ∀ (papersData : List Paper) (paperLookup : String → Option Paper)
      (paperEmbs : List (String × Vec)) (chunkLookup : String → Option Chunk)
      (chunkEmbs : List ChunkEmb) (use_chunks : Bool) (score : Vec → ℚ)
      (question : String),
      is_meta_question question = true →
      chatCore papersData paperLookup paperEmbs chunkLookup chunkEmbs use_chunks
          score question =
        (false,
         format_stats_context papersData ++ "\n\n=== SAMPLE RELEVANT PAPERS ===\n\n" ++
           format_context (search_papers paperLookup paperEmbs score 5),
         ((search_papers paperLookup paperEmbs score 5).map rpOfPaper).map mkSource) ∧
      chatStreamCore papersData paperLookup paperEmbs chunkLookup chunkEmbs use_chunks
          score question =
        (false,
         format_stats_context papersData ++ "\n\n=== SAMPLE RELEVANT PAPERS ===\n\n" ++
           format_context (search_papers paperLookup paperEmbs score 5),
         ((search_papers paperLookup paperEmbs score 5).map (fun x =>
           ({ title := x.1.title, year := x.1.year, url := x.1.url } : StreamSource))).take
           3) := by
  intro papersData paperLookup paperEmbs chunkLookup chunkEmbs use_chunks score
    question hmeta
  constructor
  · simp [chatCore, hmeta]
  · simp [chatStreamCore, hmeta]

/-- Witness for C10 at concrete inputs: the question asking how many
papers use macaques is a meta-question, and even with use_chunks = true
and a loaded chunk index both endpoints take the paper-level path. -/
theorem chat_meta_question_paper_path_witness :
    chatCore [{ id := "p1" }] (fun _ => none) [] (fun _ => none)
        [{ chunk_id := "c1", paper_id := "p1", embedding := [] }] true (fun _ => 0)
        "How many papers use macaques?" =
      (false,
       format_stats_context [{ id := "p1" }] ++ "\n\n=== SAMPLE RELEVANT PAPERS ===\n\n" ++
         format_context (search_papers (fun _ => none) [] (fun _ => 0) 5),
       ((search_papers (fun _ => none) [] (fun _ => 0) 5).map rpOfPaper).map mkSource) ∧
    chatStreamCore [{ id := "p1" }] (fun _ => none) [] (fun _ => none)
        [{ chunk_id := "c1", paper_id := "p1", embedding := [] }] true (fun _ => 0)
        "How many papers use macaques?" =
      (false,
       format_stats_context [{ id := "p1" }] ++ "\n\n=== SAMPLE RELEVANT PAPERS ===\n\n" ++
         format_context (search_papers (fun _ => none) [] (fun _ => 0) 5),
       ((search_papers (fun _ => none) [] (fun _ => 0) 5).map (fun x =>
         ({ title := x.1.title, year := x.1.year, url := x.1.url } : StreamSource))).take
         3) :=
  chat_meta_question_paper_path [{ id := "p1" }] (fun _ => none) [] (fun _ => none)
    [{ chunk_id := "c1", paper_id := "p1", embedding := [] }] true (fun _ => 0)
    "How many papers use macaques?" (by decide)

end RagChat
